import Mathlib

/-!
Shallow embedding of the sysopt expression-graph core
(`src/sysopt/symbolic/symbols.py` and `src/sysopt/symbolic/casts.py`).

Python values that can appear as graph nodes are modelled by `Node`:
registered operator functions (`Op`) and leaf values (`Leaf`).  Machine
identities (`id(...)` in CPython) are modelled by natural-number tags:
`Variable` equality and hashing are by identity, so a `Variable` is its
identity tag plus its shape tuple; `Parameter` is identified by its
`(id(block), index)` uid; `SignalReference` by its port identity (the
port's length is carried along since `shape` needs it).  Numeric
constants are modelled by rationals, matching Python's exact arithmetic
on the evaluation paths the claims exercise.

Recursive graph walks in the source (`symbols`, `call`, `_get_shape_of`,
`_is_subtree_constant`) recurse over an arbitrary edge map, which need
not terminate on malformed graphs (the spec calls cyclic traversal
stuckined), so each walk takes a fuel argument; `none` / `.stuck`
results stand for Python exceptions outside the modelled fragment or
exhausted fuel.  `defaultFuel` is an ample bound for any acyclic graph:
every recursion step either consumes a node along a simple path or one
element of a child list, so `(n+1)*(n+1)` steps suffice for `n` nodes.
-/

/-- The operator functions registered with `register_op` in
`symbols.py` (lines 134–171 and 495–497). -/
inductive Op
  | power
  | add
  | sub
  | matmul
  | neg
  | mul
  | div
  | transpose
  | evaluate_signal
deriving DecidableEq

/-- Arity recorded by `register_op` from each operator's signature:
`neg` and `transpose` take one argument, the rest take two. -/
def Op.nargs : Op → Nat
  | .neg => 1
  | .transpose => 1
  | _ => 2

/-- Leaf values of an expression graph: `Variable` (identity tag and
shape tuple), `Parameter` (block identity and index), `SignalReference`
(port identity and port length) and numeric constants. -/
inductive Leaf
  | var (vid : Nat) (shape : List Nat)
  | param (blockId : Nat) (index : Nat)
  | sig (portId : Nat) (portLen : Nat)
  | const (q : ℚ)
deriving DecidableEq

/-- `scalar_shape = (1,)` (symbols.py line 58). -/
def scalar_shape : List Nat := [1]

/-- Identity tag reserved for the module-level time variable `_t`. -/
def timeVarId : Nat := 0

/-- The global time variable `_t = Variable('t')` (symbols.py line 436),
returned by `get_time_variable`. -/
def timeVar : Leaf := .var timeVarId scalar_shape

/-- A node of an expression graph: a registered operator or a leaf
value (symbols.py stores both in the same `nodes` list). -/
inductive Node
  | op (o : Op)
  | leaf (l : Leaf)
deriving DecidableEq

/-- `ExpressionGraph` state: the node list, the edge dict mapping an
operator node's index to its ordered child indices, and the head
index. -/
structure ExpressionGraph where
  nodes : List Node
  edges : List (Nat × List Nat)
  head : Nat
deriving DecidableEq

/-- Lookup in the edge dict (Python `self.edges[node]` /
`node in self.edges`). -/
def dictLookup (d : List (Nat × List Nat)) (k : Nat) : Option (List Nat) :=
  match d with
  | [] => none
  | e :: rest => if e.1 = k then some e.2 else dictLookup rest k

/-- Insert or overwrite a key in the edge dict (Python
`self.edges[k] = v` / `self.edges.update`). -/
def dictInsert (d : List (Nat × List Nat)) (k : Nat) (v : List Nat) :
    List (Nat × List Nat) :=
  match d with
  | [] => [(k, v)]
  | e :: rest => if e.1 = k then (k, v) :: rest else e :: dictInsert rest k v

/-- Python `self.nodes.index(value)`: index of the first node comparing
equal to `value`, or `None` (`ValueError`) when absent.  Operator
functions and leaf objects never compare equal to each other. -/
def listIndex (n : Node) : List Node → Option Nat
  | [] => none
  | m :: rest => if m = n then some 0 else (listIndex n rest).map (· + 1)

/-- `ExpressionGraph.add_or_get_node` for a plain (non-graph, non-self)
value: operators are always appended as fresh nodes; other values are
deduplicated against the existing node list by equality, and appended
only when no equal node exists (symbols.py lines 314–332). -/
def addOrGetNode (g : ExpressionGraph) (n : Node) : Nat × ExpressionGraph :=
  match n with
  | .op _ => (g.nodes.length, { g with nodes := g.nodes ++ [n] })
  | .leaf _ =>
    match listIndex n g.nodes with
    | some i => (i, g)
    | none => (g.nodes.length, { g with nodes := g.nodes ++ [n] })

/-- First phase of `merge_and_return_subgraph_head`: insert every node
of the other graph in order, recording the index each one maps to. -/
def mergeNodes (g : ExpressionGraph) : List Node → List Nat × ExpressionGraph
  | [] => ([], g)
  | n :: rest =>
    let (i, g') := addOrGetNode g n
    let (is, g'') := mergeNodes g' rest
    (i :: is, g'')

/-- `merge_and_return_subgraph_head(other)` (symbols.py lines 334–344):
re-inserts the other graph's nodes, remaps its edges through the new
indices into this graph's edge dict, and returns the remapped head. -/
def mergeGraph (g : ExpressionGraph) (other : ExpressionGraph) :
    Nat × ExpressionGraph :=
  let (newIdx, g1) := mergeNodes g other.nodes
  let remap : Nat → Nat := fun i => newIdx.getD i i
  let g2 := { g1 with
    edges := other.edges.foldl
      (fun es e => dictInsert es (remap e.1) (e.2.map remap)) g1.edges }
  (remap other.head, g2)

/-- An argument passed to `ExpressionGraph(op, *args)`: a leaf value or
a nested graph (which is merged in rather than nested). -/
inductive GVal
  | leaf (l : Leaf)
  | graph (g : ExpressionGraph)

/-- `add_or_get_node` on a constructor argument: leaves go through the
dedup path, nested graphs are merged. -/
def addOrGetValue (g : ExpressionGraph) (v : GVal) : Nat × ExpressionGraph :=
  match v with
  | .leaf l => addOrGetNode g (.leaf l)
  | .graph h => mergeGraph g h

/-- Insert a list of constructor arguments left to right, collecting
their indices. -/
def addValues (g : ExpressionGraph) : List GVal → List Nat × ExpressionGraph
  | [] => ([], g)
  | v :: rest =>
    let (i, g') := addOrGetValue g v
    let (is, g'') := addValues g' rest
    (i :: is, g'')

/-- `ExpressionGraph.__init__(op, *args)` (symbols.py lines 265–272):
fresh operator node, arguments inserted/merged, one edge entry from the
operator to the argument indices, head at the operator node. -/
def ExpressionGraph.mkGraph (o : Op) (args : List GVal) : ExpressionGraph :=
  let g0 : ExpressionGraph := { nodes := [], edges := [], head := 0 }
  let (opIdx, g1) := addOrGetNode g0 (.op o)
  let (argIdxs, g2) := addValues g1 args
  { g2 with edges := dictInsert g2.edges opIdx argIdxs, head := opIdx }

/-- An argument to `push_op`: the graph itself (Python's `value is
self` short-circuit in `add_or_get_node` returns the current head) or
another value. -/
inductive PushArg
  | self
  | val (v : GVal)

/-- Insert `push_op` arguments left to right; `self` resolves to the
current head without modifying the graph. -/
def addPushArgs (g : ExpressionGraph) : List PushArg → List Nat × ExpressionGraph
  | [] => ([], g)
  | .self :: rest =>
    let (is, g') := addPushArgs g rest
    (g.head :: is, g')
  | .val v :: rest =>
    let (i, g') := addOrGetValue g v
    let (is, g'') := addPushArgs g' rest
    (i :: is, g'')

/-- `ExpressionGraph.push_op(op, *nodes)` (symbols.py lines 346–352):
appends a fresh operator node over the arguments and reassigns the
head to it.  Backs the in-place operator overloads (`__add__`,
`__radd__`, `__mul__`, ...). -/
def ExpressionGraph.pushOp (g : ExpressionGraph) (o : Op) (args : List PushArg) :
    ExpressionGraph :=
  let (opIdx, g1) := addOrGetNode g (.op o)
  let (idxs, g2) := addPushArgs g1 args
  { g2 with edges := dictInsert g2.edges opIdx idxs, head := opIdx }

/-- Ample fuel for the recursive walks over an acyclic graph. -/
def defaultFuel (g : ExpressionGraph) : Nat :=
  (g.nodes.length + 1) * (g.nodes.length + 1)

/-- `symbols()` of a leaf: `Variable.symbols` is `{self}` (line 427),
`Parameter.symbols` is `{self}` (line 492), `SignalReference.symbols`
is `{self, self.t}` where `self.t` is the global time variable (lines
545–546), and numbers have no `symbols` attribute so contribute the
empty set. -/
def Leaf.symbols : Leaf → Finset Leaf
  | .var v s => {.var v s}
  | .param b i => {.param b i}
  | .sig p n => {.sig p n, timeVar}
  | .const _ => ∅

/-- `ExpressionGraph.symbols` (symbols.py lines 393–411).  The
`Sum.inl` case walks one node; the `Sum.inr` case folds `set.union`
over a child list (which raises on an empty list, hence `none`).  A
subtree rooted at `evaluate_signal` removes the time variable from the
union of its children's symbol sets. -/
def symbolsAux (g : ExpressionGraph) : Nat → Nat ⊕ List Nat → Option (Finset Leaf)
  | 0, _ => none
  | fuel + 1, .inl node =>
    match g.nodes[node]? with
    | none => none
    | some (.leaf l) => some l.symbols
    | some (.op o) =>
      match dictLookup g.edges node with
      | none => none
      | some [] => none
      | some children =>
        match symbolsAux g fuel (.inr children) with
        | none => none
        | some u => some (if o = .evaluate_signal then u \ {timeVar} else u)
  | _ + 1, .inr [] => none
  | fuel + 1, .inr [c] => symbolsAux g fuel (.inl c)
  | fuel + 1, .inr (c :: rest) =>
    match symbolsAux g fuel (.inl c), symbolsAux g fuel (.inr rest) with
    | some s, some t => some (s ∪ t)
    | _, _ => none

/-- `ExpressionGraph.symbols()` from the head with ample fuel. -/
def ExpressionGraph.symbols (g : ExpressionGraph) : Option (Finset Leaf) :=
  symbolsAux g (defaultFuel g) (.inl g.head)

/-- `is_temporal` restricted to leaf values (symbols.py lines 579–588
after the `ExpressionGraph` branch): a `SignalReference` is temporal,
the global time variable (identity test against `_t`) is temporal, and
every other leaf — any other `Variable`, a `Parameter`, a number — is
not. -/
def leafIsTemporal : Leaf → Bool
  | .sig _ _ => true
  | .var v _ => v = timeVarId
  | .param _ _ => false
  | .const _ => false

/-- `_is_subtree_constant(graph, node)` (symbols.py lines 568–577): a
leaf is constant iff it is not temporal; a subtree rooted at
`evaluate_signal` is constant outright, regardless of its time
argument; any other operator subtree is constant iff all of its
children are.  The `Sum.inr` case folds `all` over a child list. -/
def isSubtreeConstant (g : ExpressionGraph) : Nat → Nat ⊕ List Nat → Option Bool
  | 0, _ => none
  | fuel + 1, .inl node =>
    match g.nodes[node]? with
    | none => none
    | some (.leaf l) => some (!leafIsTemporal l)
    | some (.op o) =>
      if o = .evaluate_signal then some true
      else
        match dictLookup g.edges node with
        | none => none
        | some children => isSubtreeConstant g fuel (.inr children)
  | _ + 1, .inr [] => some true
  | fuel + 1, .inr (c :: rest) =>
    match isSubtreeConstant g fuel (.inl c) with
    | none => none
    | some false => some false
    | some true => isSubtreeConstant g fuel (.inr rest)

/-- The values `is_temporal` dispatches on: expression graphs, leaf
values, or bare operator functions. -/
inductive SymArg
  | graph (g : ExpressionGraph)
  | leaf (l : Leaf)
  | opv (o : Op)

/-- `is_temporal(symbol)` (symbols.py lines 579–588): an
`ExpressionGraph` is temporal iff its head subtree is not constant;
leaves as in `leafIsTemporal`; operator functions are not temporal. -/
def is_temporal : SymArg → Option Bool
  | .graph g => (isSubtreeConstant g (defaultFuel g) (.inl g.head)).map (!·)
  | .leaf l => some (leafIsTemporal l)
  | .opv _ => some false

/-- In CPython a `set` never compares equal to a `dict`: `set.__eq__`
returns `NotImplemented` for a non-set operand, so `s == {}` (with `{}`
the empty dict literal) is `False` — and `s != {}` is `True` — for
every set `s`, including the empty one.  This models the comparison on
symbols.py line 312. -/
def pySetEqEmptyDict (_s : Finset Leaf) : Bool := false

/-- `ExpressionGraph.is_symbolic` (symbols.py lines 310–312): evaluates
`self.symbols()` and compares it, as a Python set, against the empty
dict literal `{}` with `!=`. -/
def ExpressionGraph.is_symbolic (g : ExpressionGraph) : Option Bool :=
  (g.symbols).map (fun s => !pySetEqEmptyDict s)

/-- Values produced by `ExpressionGraph.call`: numbers, or a leaf
object passed through unchanged because it had no binding. -/
inductive PyVal
  | num (q : ℚ)
  | symv (l : Leaf)
deriving DecidableEq

/-- An unbound leaf is returned as-is by `call`; a numeric constant
leaf is the number itself. -/
def leafDefault : Leaf → PyVal
  | .const q => .num q
  | l => .symv l

/-- Applying a registered operator function to evaluated children, on
the numeric fragment the claims exercise.  Each case mirrors the
Python operator the registered function delegates to: `add` is `+`,
`sub` is `-`, `mul` is `*`, `div` is `/` (raising on a zero divisor),
`neg` is unary minus, `power` is `**` (modelled for integer
exponents, where Python's result is exact; `0 ** negative` raises).
Applications outside this fragment — symbolic operands, `matmul` or
`transpose` on scalars, `evaluate_signal` (calling a number), wrong
arities — raise in Python and are `none` here. -/
def opApply : Op → List PyVal → Option PyVal
  | .add, [.num x, .num y] => some (.num (x + y))
  | .sub, [.num x, .num y] => some (.num (x - y))
  | .mul, [.num x, .num y] => some (.num (x * y))
  | .div, [.num x, .num y] => if y = 0 then none else some (.num (x / y))
  | .power, [.num x, .num y] =>
    if y.den = 1 then
      if 0 ≤ y.num ∨ x ≠ 0 then some (.num (x ^ y.num)) else none
    else none
  | .neg, [.num x] => some (.num (-x))
  | _, _ => none

/-- `ExpressionGraph.call(values)` (symbols.py lines 296–308): operator
nodes apply the operator to recursively evaluated children; leaf nodes
substitute from the bindings when present and otherwise pass through.
The `Sum.inr` case evaluates a child list in order; a node walk yields
a singleton. -/
def callAux (g : ExpressionGraph) (env : Leaf → Option ℚ) :
    Nat → Nat ⊕ List Nat → Option (List PyVal)
  | 0, _ => none
  | fuel + 1, .inl node =>
    match g.nodes[node]? with
    | none => none
    | some (.op o) =>
      match dictLookup g.edges node with
      | none => none
      | some children =>
        match callAux g env fuel (.inr children) with
        | none => none
        | some vs =>
          match opApply o vs with
          | none => none
          | some v => some [v]
    | some (.leaf l) =>
      match env l with
      | some q => some [.num q]
      | none => some [leafDefault l]
  | _ + 1, .inr [] => some []
  | fuel + 1, .inr (c :: rest) =>
    match callAux g env fuel (.inl c), callAux g env fuel (.inr rest) with
    | some v, some vs => some (v ++ vs)
    | _, _ => none

/-- `ExpressionGraph.call(values)` from the head with ample fuel. -/
def ExpressionGraph.call (g : ExpressionGraph) (env : Leaf → Option ℚ) :
    Option PyVal :=
  match callAux g env (defaultFuel g) (.inl g.head) with
  | some [v] => some v
  | _ => none

/-- Result of a shape computation: a computed value, the
`AttributeError('Invalid shape')` the shape rules raise on incompatible
arguments, or `.stuck` for exceptions outside the modelled fragment
(IndexError, ValueError, KeyError, NotImplementedError) and exhausted
fuel.  A node walk yields a singleton `.ok`; a child-list walk yields
the list of child shapes. -/
inductive ShRes
  | ok (shapes : List (List Nat))
  | err
  | stuck
deriving DecidableEq

/-- Loop body of `infer_scalar_shape` (symbols.py lines 61–70): each
further shape must equal the current one or be scalar; a scalar current
shape is widened; anything else raises the invalid-shape error. -/
def scalarShapeFold (this : List Nat) : List (List Nat) → ShRes
  | [] => .ok [this]
  | s :: rest =>
    if s = this ∨ s = scalar_shape then scalarShapeFold this rest
    else if this = scalar_shape then scalarShapeFold s rest
    else .err

/-- `infer_scalar_shape(*shapes)`: seeded with the first shape
(`shapes[0]` raises IndexError when there are none). -/
def inferScalarShape : List (List Nat) → ShRes
  | [] => .stuck
  | s :: rest => scalarShapeFold s rest

/-- Loop body of `matmul_shape` (symbols.py lines 73–80): each next
shape must be a pair whose first component matches the running inner
dimension, which then advances; a mismatch raises the invalid-shape
error, a non-pair fails tuple unpacking. -/
def matmulShapeFold (n m : Nat) : List (List Nat) → ShRes
  | [] => .ok [[n, m]]
  | s :: rest =>
    match s with
    | [n2, m2] => if m ≠ n2 then .err else matmulShapeFold n m2 rest
    | _ => .stuck

/-- `matmul_shape(*shapes)`: unpacks the first shape as a pair and
folds the rest. -/
def matmulShape : List (List Nat) → ShRes
  | [] => .stuck
  | s :: rest =>
    match s with
    | [n, m] => matmulShapeFold n m rest
    | _ => .stuck

/-- `transpose_shape(shape)` (symbols.py lines 83–85): swaps a pair;
it is registered for a one-argument operator. -/
def transposeShape : List (List Nat) → ShRes
  | [[n, m]] => .ok [[m, n]]
  | _ => .stuck

/-- `infer_shape(op, *shapes)` (symbols.py lines 88–90) resolved
through the shape registry built by `register_op`: `matmul` uses
`matmul_shape`, `transpose` uses `transpose_shape`, every other
registered operator uses the default `infer_scalar_shape`. -/
def inferShape (o : Op) (shapes : List (List Nat)) : ShRes :=
  match o with
  | .matmul => matmulShape shapes
  | .transpose => transposeShape shapes
  | _ => inferScalarShape shapes

/-- The `shape` of a leaf object: a `Variable` carries the shape tuple
fixed at construction, `Parameter.shape` is always scalar (line 489),
`SignalReference.shape` is `(len(port),)` (line 531), and plain
numbers are given `scalar_shape` (lines 290–291). -/
def Leaf.shape : Leaf → List Nat
  | .var _ s => s
  | .param _ _ => scalar_shape
  | .sig _ n => [n]
  | .const _ => scalar_shape

/-- `ExpressionGraph._get_shape_of(node)` (symbols.py lines 278–294):
a node with an edge entry looks itself up in the node list, computes
its children's shapes, and applies the operator's shape rule; a node
without an edge entry returns the leaf's own shape (numbers are
scalar). -/
def shapeAux (g : ExpressionGraph) : Nat → Nat ⊕ List Nat → ShRes
  | 0, _ => .stuck
  | fuel + 1, .inl node =>
    match dictLookup g.edges node with
    | some children =>
      match g.nodes[node]? with
      | none => .stuck
      | some nd =>
        match shapeAux g fuel (.inr children) with
        | .ok shapes =>
          match nd with
          | .op o => inferShape o shapes
          | .leaf _ => .stuck
        | r => r
    | none =>
      match g.nodes[node]? with
      | none => .stuck
      | some (.leaf l) => .ok [l.shape]
      | some (.op _) => .stuck
  | _ + 1, .inr [] => .ok []
  | fuel + 1, .inr (c :: rest) =>
    match shapeAux g fuel (.inl c) with
    | .ok s =>
      match shapeAux g fuel (.inr rest) with
      | .ok t => .ok (s ++ t)
      | r => r
    | r => r

/-- The `shape` property (symbols.py lines 274–276): `_get_shape_of`
from the head, with ample fuel. -/
def ExpressionGraph.shape (g : ExpressionGraph) : ShRes :=
  shapeAux g (defaultFuel g) (.inl g.head)

/-- A stand-in for CPython's hash of each node value, all of which are
hashable: operator functions hash by identity, `Variable` by
`hash(id(self))`, `Parameter` by `hash(self.uid)`, `SignalReference`
by `hash(self.port)`, numbers by value.  The exact integers are
immaterial (CPython's are address-derived); what matters is that every
node hash succeeds. -/
def nodeHash : Node → ℤ
  | .op .power => 1
  | .op .add => 2
  | .op .sub => 3
  | .op .matmul => 4
  | .op .neg => 5
  | .op .mul => 6
  | .op .div => 7
  | .op .transpose => 8
  | .op .evaluate_signal => 9
  | .leaf (.var v _) => v
  | .leaf (.param b i) => b + i
  | .leaf (.sig p _) => p
  | .leaf (.const q) => q.num

/-- An element of the tuple handed to `hash` on symbols.py line 391:
the raw edge dict, or an already-computed node hash. -/
inductive HAtom
  | int (n : ℤ)
  | dict (entries : List (Nat × List Nat))

/-- CPython `hash` on one tuple element: integers hash fine; a `dict`
is unhashable and raises `TypeError`. -/
def pyHashAtom : HAtom → Option ℤ
  | .int n => some n
  | .dict _ => none

/-- Hashing a tuple hashes every element in order; any unhashable
element propagates its `TypeError`. -/
def pyHashTupleElems : List HAtom → Option (List ℤ)
  | [] => some []
  | a :: rest =>
    match pyHashAtom a with
    | none => none
    | some h => (pyHashTupleElems rest).map (h :: ·)

/-- Combine the element hashes into the tuple hash (the exact mixing
function is immaterial here). -/
def pyHashTuple (xs : List HAtom) : Option ℤ :=
  (pyHashTupleElems xs).map (List.foldl (fun a b => 31 * a + b) 7)

/-- `ExpressionGraph.__hash__` (symbols.py lines 390–391):
`hash((self.edges, *[hash(n) for n in self.nodes]))`.  The inner node
hashes are computed first (all succeed), then the tuple containing the
raw `self.edges` dict as its first element is hashed. -/
def ExpressionGraph.pyHashValue (g : ExpressionGraph) : Option ℤ :=
  pyHashTuple (.dict g.edges :: g.nodes.map (fun n => .int (nodeHash n)))

/-- The block collaborator (`sysopt.block`): an identity usable as a
cache key and an ordered sequence of parameter names. -/
structure Block where
  bid : Nat
  parameters : List String
deriving DecidableEq

/-- Python `list.index` over the parameter names. -/
def listIndexStr (s : String) : List String → Option Nat
  | [] => none
  | x :: rest => if x = s then some 0 else (listIndexStr s rest).map (· + 1)

/-- Modelled from the spec: the block collaborator's
`find_by_name('parameters', name)` is missing from `src/` (only
`sysopt.block`'s callers are present); per §6 it is "a name→index
lookup (raising a lookup failure if absent)" over the block's ordered
parameter names. -/
def Block.find_by_name (b : Block) (name : String) : Option Nat :=
  listIndexStr name b.parameters

/-- `find_param_index_by_name(block, name)` (symbols.py lines 17–26):
tries the block's lookup, falls back to `block.parameters.index`, and
raises `ValueError` (here `none`) when both fail. -/
def find_param_index_by_name (b : Block) (name : String) : Option Nat :=
  match b.find_by_name name with
  | some i => some i
  | none => listIndexStr name b.parameters

/-- The process-wide `Parameter._table` plus an allocation counter:
created Parameter objects are identified by allocation order, and the
table maps each `(block identity, index)` uid to the object allocated
for it. -/
structure ParamState where
  table : List ((Nat × Nat) × Nat)
  nextId : Nat
deriving DecidableEq

/-- Lookup in `Parameter._table`. -/
def lookupUid : List ((Nat × Nat) × Nat) → Nat × Nat → Option Nat
  | [], _ => none
  | (k, v) :: rest, u => if k = u then some v else lookupUid rest u

/-- Outcome of `Parameter.__new__`: the (identity of the) returned
object, or an exception (`ValueError` from name resolution or
`AssertionError` from the index bound check). -/
inductive ParamResult
  | ok (objId : Nat)
  | error
deriving DecidableEq

/-- `Parameter.__new__(block, parameter)` (symbols.py lines 449–469):
resolve a name through `find_param_index_by_name`, check
`0 <= index < len(block.parameters)`, then return the cached object
for `(id(block), index)` if present, else allocate a fresh object and
cache it.  On either failure the exception propagates before anything
is allocated or cached, so the state is returned unchanged. -/
def Parameter.new (s : ParamState) (b : Block) (p : String ⊕ ℤ) :
    ParamResult × ParamState :=
  let index? : Option ℤ :=
    match p with
    | .inl name => (find_param_index_by_name b name).map Int.ofNat
    | .inr i => some i
  match index? with
  | none => (.error, s)
  | some i =>
    if 0 ≤ i ∧ i < b.parameters.length then
      let uid := (b.bid, i.toNat)
      match lookupUid s.table uid with
      | some oid => (.ok oid, s)
      | none =>
        (.ok s.nextId,
         { table := s.table ++ [(uid, s.nextId)], nextId := s.nextId + 1 })
    else (.error, s)

/-- Errors raised by `cast_type` (casts.py lines 20–41):
`NotImplementedError` when no converter is known for the source (or
source/target pair), `TypeError` when the target is omitted and the
converter is not unique. -/
inductive CastErr
  | notImplemented
  | typeError
deriving DecidableEq

/-- Lookup in a registry dict keyed by type name. -/
def regLookup {α : Type} : List (String × α) → String → Option α
  | [], _ => none
  | (k, v) :: rest, t => if k = t then some v else regLookup rest t

/-- The cast registry `_registry` (casts.py line 3): source type name
to a dict from target type name to converter.  `V` is the universe of
values converters act on. -/
abbrev CastRegistry (V : Type) : Type := List (String × List (String × (V → V)))

/-- `cast_type(var, to_type)` (casts.py lines 20–41) on a value of
source type `ty`.  With the target omitted: no entry for the source
type raises the unknown-cast error; an entry with exactly one
converter applies it; any other count raises the ambiguity error.
With a target given: the converter for the pair is applied, and a
missing source or target entry raises the unknown-cast error. -/
def cast_type {V : Type} (reg : CastRegistry V) (ty : String) (v : V)
    (toTy : Option String) : Except CastErr V :=
  match toTy with
  | none =>
    match regLookup reg ty with
    | none => .error .notImplemented
    | some [(_, f)] => .ok (f v)
    | some _ => .error .typeError
  | some t =>
    match regLookup reg ty with
    | none => .error .notImplemented
    | some casters =>
      match regLookup casters t with
      | none => .error .notImplemented
      | some f => .ok (f v)

/-- A fresh user `Variable` (`var = Variable()`), distinct from the
global time variable. -/
def varL : Leaf := .var 1 scalar_shape

/-- A `SignalReference` on a port of length 1 (`sig`). -/
def sigL : Leaf := .sig 10 1

/-- A `Parameter` bound to some block's parameter 0 (`param`). -/
def paramL : Leaf := .param 5 0

/-- `sig(1)`: `SignalReference.__call__(1)` builds
`ExpressionGraph(evaluate_signal, sig, 1)` (symbols.py lines 542–543). -/
def sig1Graph : ExpressionGraph :=
  .mkGraph .evaluate_signal [.leaf sigL, .leaf (.const 1)]

/-- `1 + var * sig(1) + param` exactly as Python builds it:
`var * sig(1)` via `Variable.__mul__` (a fresh graph, merging the
`sig(1)` subgraph), then `1 + _` via `__radd__`/`push_op(add, 1, self)`
(the literal `1` deduplicates against the time argument of `sig(1)`),
then `_ + param` via `__add__`/`push_op(add, self, param)`. -/
def c1Expr : ExpressionGraph :=
  ((ExpressionGraph.mkGraph .mul [.leaf varL, .graph sig1Graph]).pushOp
      .add [.val (.leaf (.const 1)), .self]).pushOp
    .add [.self, .val (.leaf paramL)]

/-- `var + sig` with a bare `SignalReference` leaf, as in the
repository's `test_is_temporal`. -/
def varSigBareGraph : ExpressionGraph := .mkGraph .add [.leaf varL, .leaf sigL]

/-- `sig(t)`: the signal-evaluation graph applied at the global time
variable. -/
def sigTGraph : ExpressionGraph :=
  .mkGraph .evaluate_signal [.leaf sigL, .leaf timeVar]

/-- `var + sig(t)`: a `Variable` plus the signal-evaluation graph
`sig(t)` (built by `Variable.__add__`, merging the subgraph). -/
def varSigTGraph : ExpressionGraph :=
  .mkGraph .add [.leaf varL, .graph sigTGraph]

/-- `sig(0)`: the signal sampled at a literal numeric time. -/
def sig0Graph : ExpressionGraph :=
  .mkGraph .evaluate_signal [.leaf sigL, .leaf (.const 0)]

/-- `1 + 2`: a graph all of whose leaves are numeric constants. -/
def constGraph : ExpressionGraph :=
  .mkGraph .add [.leaf (.const 1), .leaf (.const 2)]

/-- Matrix product of arguments with shapes `(3,4)` and `(4,2)`. -/
def matmulGoodGraph : ExpressionGraph :=
  .mkGraph .matmul [.leaf (.var 1 [3, 4]), .leaf (.var 2 [4, 2])]

/-- Matrix product of arguments with shapes `(3,4)` and `(5,2)`. -/
def matmulBadGraph : ExpressionGraph :=
  .mkGraph .matmul [.leaf (.var 1 [3, 4]), .leaf (.var 2 [5, 2])]

theorem listIndex_append_self (n : Node) :
    ∀ xs : List Node, listIndex n xs = none →
      listIndex n (xs ++ [n]) = some xs.length := by
  intro xs
  induction xs with
  | nil => intro _; simp [listIndex]
  | cons m rest ih =>
    intro h
    by_cases hm : m = n
    · simp [listIndex, hm] at h
    · simp only [listIndex, if_neg hm, Option.map_eq_none'] at h
      simp only [List.cons_append, listIndex, if_neg hm, List.append_eq, ih h,
        Option.map_some', List.length_cons]

theorem lookupUid_append_self (u : Nat × Nat) (v : Nat) :
    ∀ t : List ((Nat × Nat) × Nat), lookupUid t u = none →
      lookupUid (t ++ [(u, v)]) u = some v := by
  intro t
  induction t with
  | nil => intro _; simp [lookupUid]
  | cons e rest ih =>
    intro h
    by_cases he : e.1 = u
    · simp [lookupUid, he] at h
    · simp only [lookupUid, if_neg he] at h
      simp only [List.cons_append, lookupUid, if_neg he, List.append_eq, ih h]

theorem lookupUid_append_of_some (u : Nat × Nat) (o : Nat)
    (l : List ((Nat × Nat) × Nat)) :
    ∀ t : List ((Nat × Nat) × Nat), lookupUid t u = some o →
      lookupUid (t ++ l) u = some o := by
  intro t
  induction t with
  | nil => intro h; simp [lookupUid] at h
  | cons e rest ih =>
    intro h
    by_cases he : e.1 = u
    · simp only [lookupUid, if_pos he] at h
      simp only [List.cons_append, lookupUid, if_pos he, List.append_eq, h]
    · simp only [lookupUid, if_neg he] at h
      simp only [List.cons_append, lookupUid, if_neg he, List.append_eq, ih h]

theorem listIndexStr_eq_none (s : String) :
    ∀ l : List String, s ∉ l → listIndexStr s l = none := by
  intro l
  induction l with
  | nil => intro _; rfl
  | cons x rest ih =>
    intro h
    have hx : ¬x = s := fun he => h (he ▸ List.mem_cons_self x rest)
    have hr : s ∉ rest := fun hm => h (List.mem_cons_of_mem x hm)
    simp only [listIndexStr, if_neg hx, ih hr, Option.map_none']

theorem regLookup_mem {α : Type} (t : String) (a : α) :
    ∀ l : List (String × α), regLookup l t = some a → (t, a) ∈ l := by
  intro l
  induction l with
  | nil => intro h; simp [regLookup] at h
  | cons e rest ih =>
    obtain ⟨k, b⟩ := e
    intro h
    by_cases he : k = t
    · simp only [regLookup, if_pos he] at h
      obtain rfl := Option.some.inj h
      rw [he]
      exact List.mem_cons_self _ _
    · simp only [regLookup, if_neg he] at h
      exact List.mem_cons_of_mem _ (ih h)

theorem shapeAux_zero (g : ExpressionGraph) (x : Nat ⊕ List Nat) :
    shapeAux g 0 x = .stuck := rfl

theorem shapeAux_inl_def (g : ExpressionGraph) (fuel node : Nat) :
    shapeAux g (fuel + 1) (.inl node) =
      (match dictLookup g.edges node with
       | some children =>
         match g.nodes[node]? with
         | none => .stuck
         | some nd =>
           match shapeAux g fuel (.inr children) with
           | .ok shapes =>
             match nd with
             | .op o => inferShape o shapes
             | .leaf _ => .stuck
           | r => r
       | none =>
         match g.nodes[node]? with
         | none => .stuck
         | some (.leaf l) => .ok [l.shape]
         | some (.op _) => .stuck) := rfl

theorem shapeAux_inr_nil (g : ExpressionGraph) (fuel : Nat) :
    shapeAux g (fuel + 1) (.inr []) = .ok [] := rfl

theorem shapeAux_inr_cons (g : ExpressionGraph) (fuel c : Nat) (rest : List Nat) :
    shapeAux g (fuel + 1) (.inr (c :: rest)) =
      (match shapeAux g fuel (.inl c) with
       | .ok s =>
         match shapeAux g fuel (.inr rest) with
         | .ok t => .ok (s ++ t)
         | r => r
       | r => r) := rfl

theorem shapeAux_mono (g : ExpressionGraph) :
    ∀ (fuel : Nat) (x : Nat ⊕ List Nat), shapeAux g fuel x ≠ .stuck →
      shapeAux g (fuel + 1) x = shapeAux g fuel x := by
  intro fuel
  induction fuel with
  | zero => intro x h; exact absurd rfl h
  | succ f ih =>
    intro x h
    match x with
    | .inl node =>
      cases hdl : dictLookup g.edges node with
      | none =>
        rw [shapeAux_inl_def, shapeAux_inl_def]
        simp only [hdl]
      | some children =>
        cases hn : g.nodes[node]? with
        | none =>
          rw [shapeAux_inl_def, shapeAux_inl_def]
          simp only [hdl, hn]
        | some nd =>
          cases hr : shapeAux g f (.inr children) with
          | stuck =>
            rw [shapeAux_inl_def] at h
            simp only [hdl, hn, hr] at h
            exact absurd rfl h
          | ok shapes =>
            have hm := ih (.inr children) (by rw [hr]; exact fun hx => ShRes.noConfusion hx)
            rw [shapeAux_inl_def, shapeAux_inl_def]
            simp only [hdl, hn, hr, hm]
          | err =>
            have hm := ih (.inr children) (by rw [hr]; exact fun hx => ShRes.noConfusion hx)
            rw [shapeAux_inl_def, shapeAux_inl_def]
            simp only [hdl, hn, hr, hm]
    | .inr [] => rfl
    | .inr (c :: rest) =>
      cases hc : shapeAux g f (.inl c) with
      | stuck =>
        rw [shapeAux_inr_cons] at h
        simp only [hc] at h
        exact absurd rfl h
      | err =>
        have hcm := ih (.inl c) (by rw [hc]; exact fun hx => ShRes.noConfusion hx)
        rw [shapeAux_inr_cons, shapeAux_inr_cons]
        simp only [hc, hcm]
      | ok s =>
        have hcm := ih (.inl c) (by rw [hc]; exact fun hx => ShRes.noConfusion hx)
        cases hrest : shapeAux g f (.inr rest) with
        | stuck =>
          rw [shapeAux_inr_cons] at h
          simp only [hc, hrest] at h
          exact absurd rfl h
        | ok t =>
          have hrm := ih (.inr rest) (by rw [hrest]; exact fun hx => ShRes.noConfusion hx)
          rw [shapeAux_inr_cons, shapeAux_inr_cons]
          simp only [hc, hcm, hrest, hrm]
        | err =>
          have hrm := ih (.inr rest) (by rw [hrest]; exact fun hx => ShRes.noConfusion hx)
          rw [shapeAux_inr_cons, shapeAux_inr_cons]
          simp only [hc, hcm, hrest, hrm]

theorem shapeAux_mono_le (g : ExpressionGraph) (fuel fuel' : Nat)
    (hle : fuel ≤ fuel') (x : Nat ⊕ List Nat) (h : shapeAux g fuel x ≠ .stuck) :
    shapeAux g fuel' x = shapeAux g fuel x := by
  induction fuel' with
  | zero =>
    have h0 : fuel = 0 := Nat.le_zero.mp hle
    rw [h0]
  | succ f ih =>
    rcases Nat.lt_or_ge fuel (f + 1) with hlt | hge
    · have hf : fuel ≤ f := Nat.lt_succ_iff.mp hlt
      have heq := ih hf
      have hne : shapeAux g f x ≠ .stuck := by rw [heq]; exact h
      rw [shapeAux_mono g f x hne, heq]
    · have h1 : fuel = f + 1 := Nat.le_antisymm hle hge
      rw [h1]

theorem mkGraph_pair_leaves (o : Op) (a b : Leaf) (hab : a ≠ b) :
    ExpressionGraph.mkGraph o [.leaf a, .leaf b] =
      ⟨[.op o, .leaf a, .leaf b], [(0, [1, 2])], 0⟩ := by
  simp [ExpressionGraph.mkGraph, addValues, addOrGetValue, addOrGetNode,
    listIndex, dictInsert, hab]

theorem callAux_pair_leaves (o : Op) (a b : Leaf) (hab : a ≠ b) (x y : ℚ)
    (fuel : Nat) :
    callAux ⟨[.op o, .leaf a, .leaf b], [(0, [1, 2])], 0⟩
        (fun l => if l = a then some x else if l = b then some y else none)
        (fuel + 4) (.inl 0)
      = (opApply o [.num x, .num y]).map (fun v => [v]) := by
  simp [callAux, dictLookup, leafDefault, hab, Ne.symm hab]
  cases opApply o [.num x, .num y] <;> simp

/-- Claim C1 — free-symbol extraction: the graph built as
`1 + var * sig(1) + param` has `symbols()` equal to exactly
`{var, sig, param}` (time was bound to the literal `1` inside
`sig(1)`); a bare, unapplied `SignalReference` leaf contributes both
itself and the time variable; and the `sig(1)` subtree alone, rooted at
the signal-evaluation operator, contributes the union of its children's
symbol sets minus the global time variable — here `{sig}`. -/
theorem c1_free_symbol_extraction :
    c1Expr.symbols = some {varL, sigL, paramL}
    ∧ (∀ (p n : Nat), Leaf.symbols (.sig p n) = {.sig p n, timeVar})
    ∧ sig1Graph.symbols = some {sigL} :=
  ⟨by decide, fun p n => rfl, by decide⟩

/-- Claim C2, counterexample: the claim states that `var + sig(t)` —
a `Variable` added to a `SignalReference` applied at the global time
variable — is temporal, and that a bare `Variable` is never temporal.
On the code, `_is_subtree_constant` classifies every subtree rooted at
`evaluate_signal` as constant regardless of its time argument, so
`is_temporal(var + sig(t))` is `False`; and the global time variable,
itself a bare `Variable`, is temporal. -/
theorem c2_temporal_counterexample :
    is_temporal (.graph varSigTGraph) = some false
    ∧ is_temporal (.leaf timeVar) = some true :=
  ⟨by decide, by decide⟩

/-- Claim C2, amended — temporal classification as the code implements
it (and as the repository's `test_is_temporal` exercises it): a bare
`Variable` other than the global time variable is never temporal, a
bare `Parameter` is never temporal, a bare `SignalReference` is
temporal, `var + sig` with a bare signal leaf is temporal, while
`sig(0)` and even `var + sig(t)` — any subtree rooted at the
signal-evaluation operator — are not temporal. -/
theorem c2_temporal_classification_amended :
    (∀ (v : Nat) (s : List Nat), v ≠ timeVarId →
        is_temporal (.leaf (.var v s)) = some false)
    ∧ (∀ (bId i : Nat), is_temporal (.leaf (.param bId i)) = some false)
    ∧ is_temporal (.leaf sigL) = some true
    ∧ is_temporal (.graph varSigBareGraph) = some true
    ∧ is_temporal (.graph sig0Graph) = some false
    ∧ is_temporal (.graph varSigTGraph) = some false := by
  refine ⟨?_, fun bId i => rfl, by decide, by decide, by decide, by decide⟩
  intro v s hv
  simp [is_temporal, leafIsTemporal, hv]

/-- Witness for C2's amended claim at concrete inputs: a fresh
`Variable` and a `Parameter` are not temporal. -/
theorem c2_temporal_classification_witness :
    is_temporal (.leaf (.var 1 scalar_shape)) = some false
    ∧ is_temporal (.leaf (.param 5 0)) = some false :=
  ⟨c2_temporal_classification_amended.1 1 scalar_shape (by decide),
   c2_temporal_classification_amended.2.1 5 0⟩

/-- Claim C3 — functional equivalence: for every registered binary
operator `op` and distinct leaves `a`, `b` bound to numbers `x`, `y`,
`ExpressionGraph(op, a, b).call({a: x, b: y})` returns exactly
`op(x, y)` (the operator applied to the bound values, including its
error behaviour). -/
theorem c3_call_functional_equivalence (o : Op) (hbin : o.nargs = 2)
    (a b : Leaf) (hab : a ≠ b) (x y : ℚ) :
    (ExpressionGraph.mkGraph o [.leaf a, .leaf b]).call
        (fun l => if l = a then some x else if l = b then some y else none)
      = opApply o [.num x, .num y] := by
  rw [mkGraph_pair_leaves o a b hab]
  show (match callAux ⟨[.op o, .leaf a, .leaf b], [(0, [1, 2])], 0⟩
      (fun l => if l = a then some x else if l = b then some y else none)
      (12 + 4) (.inl 0) with
    | some [v] => some v
    | _ => none) = opApply o [.num x, .num y]
  rw [callAux_pair_leaves o a b hab x y 12]
  cases opApply o [.num x, .num y] <;> simp

/-- Witness for C3: `a + b` with `a = 2`, `b = 3` evaluates to `5`. -/
theorem c3_call_functional_equivalence_witness :
    (ExpressionGraph.mkGraph .add
        [.leaf (.var 1 scalar_shape), .leaf (.var 2 scalar_shape)]).call
        (fun l => if l = Leaf.var 1 scalar_shape then some 2
                  else if l = Leaf.var 2 scalar_shape then some 3 else none)
      = some (.num 5) :=
  (c3_call_functional_equivalence .add rfl (.var 1 scalar_shape)
      (.var 2 scalar_shape) (by decide) 2 3).trans (by norm_num [opApply])

/-- Claim C4 — node insertion: `add_or_get_node` on a leaf equal to one
already in the node list returns that node's (first) index and leaves
the graph unchanged, so inserting the same leaf twice yields the same
index both times; on a registered operator it always appends a fresh
node at a new index, even when an equal operator node already exists. -/
theorem c4_leaf_dedup_op_fresh :
    (∀ (g : ExpressionGraph) (l : Leaf) (i : Nat),
        listIndex (.leaf l) g.nodes = some i →
        addOrGetNode g (.leaf l) = (i, g))
    ∧ (∀ (g : ExpressionGraph) (l : Leaf),
        addOrGetNode (addOrGetNode g (.leaf l)).2 (.leaf l) =
          ((addOrGetNode g (.leaf l)).1, (addOrGetNode g (.leaf l)).2))
    ∧ (∀ (g : ExpressionGraph) (o : Op),
        addOrGetNode g (.op o) =
          (g.nodes.length, { g with nodes := g.nodes ++ [.op o] })) := by
  refine ⟨?_, ?_, ?_⟩
  · intro g l i h
    simp [addOrGetNode, h]
  · intro g l
    cases h : listIndex (.leaf l) g.nodes with
    | some i => simp [addOrGetNode, h]
    | none => simp [addOrGetNode, h, listIndex_append_self _ _ h]
  · intro g o
    rfl

/-- Witness for C4 at concrete inputs: re-inserting a present leaf
returns its index without change; inserting `add` when an `add` node
already exists still appends a fresh node. -/
theorem c4_leaf_dedup_op_fresh_witness :
    addOrGetNode ⟨[.op .add, .leaf varL], [], 0⟩ (.leaf varL) =
      (1, ⟨[.op .add, .leaf varL], [], 0⟩)
    ∧ addOrGetNode ⟨[.op .add], [], 0⟩ (.op .add) =
      (1, ⟨[.op .add, .op .add], [], 0⟩) :=
  ⟨c4_leaf_dedup_op_fresh.1 ⟨[.op .add, .leaf varL], [], 0⟩ varL 1 (by decide),
   c4_leaf_dedup_op_fresh.2.2 ⟨[.op .add], [], 0⟩ .add⟩

/-- Claim C5 — Parameter memoization: once a construction of
`Parameter(block, p)` returns an object, every later identical
construction returns that same object and leaves the cache unchanged
(hence any number of repeat constructions return the first object);
and no construction ever evicts an existing cache entry, so the cached
mapping persists for the remainder of the process. -/
theorem c5_parameter_memoization :
    (∀ (s : ParamState) (b : Block) (p : String ⊕ ℤ) (r : Nat)
        (s' : ParamState),
        Parameter.new s b p = (.ok r, s') → Parameter.new s' b p = (.ok r, s'))
    ∧ (∀ (s : ParamState) (b : Block) (p : String ⊕ ℤ) (u : Nat × Nat)
        (o : Nat),
        lookupUid s.table u = some o →
        lookupUid (Parameter.new s b p).2.table u = some o) := by
  constructor
  · intro s b p r s' h
    unfold Parameter.new at h ⊢
    cases hidx : (match p with
      | .inl name => (find_param_index_by_name b name).map Int.ofNat
      | .inr i => some i) with
    | none => simp [hidx] at h
    | some i =>
      simp only [hidx] at h ⊢
      by_cases hb : 0 ≤ i ∧ i < (b.parameters.length : ℤ)
      · simp only [if_pos hb] at h ⊢
        cases hl : lookupUid s.table (b.bid, i.toNat) with
        | some oid =>
          simp only [hl] at h
          obtain ⟨h1, h2⟩ := Prod.mk.injEq .. ▸ h
          subst h2
          simp [hl, h1]
        | none =>
          simp only [hl] at h
          obtain ⟨h1, h2⟩ := Prod.mk.injEq .. ▸ h
          subst h2
          simp [lookupUid_append_self _ _ _ hl, h1]
      · simp [if_neg hb] at h
  · intro s b p u o h
    unfold Parameter.new
    cases hidx : (match p with
      | .inl name => (find_param_index_by_name b name).map Int.ofNat
      | .inr i => some i) with
    | none => simpa [hidx] using h
    | some i =>
      simp only [hidx]
      by_cases hb : 0 ≤ i ∧ i < (b.parameters.length : ℤ)
      · simp only [if_pos hb]
        cases hl : lookupUid s.table (b.bid, i.toNat) with
        | some oid => simpa using h
        | none => simpa using lookupUid_append_of_some _ _ _ _ h
      · simpa [if_neg hb] using h

/-- Witness for C5: after `Parameter(block, 0)` allocates object `0`,
calling it again returns object `0` with the cache unchanged; a later
construction for a different block preserves the cached entry. -/
theorem c5_parameter_memoization_witness :
    Parameter.new ⟨[((1, 0), 0)], 1⟩ ⟨1, ["p0"]⟩ (.inr 0) =
      (.ok 0, ⟨[((1, 0), 0)], 1⟩)
    ∧ lookupUid (Parameter.new ⟨[((1, 0), 0)], 1⟩ ⟨2, ["q0"]⟩
        (.inr 0)).2.table (1, 0) = some 0 :=
  ⟨c5_parameter_memoization.1 ⟨[], 0⟩ ⟨1, ["p0"]⟩ (.inr 0) 0
      ⟨[((1, 0), 0)], 1⟩ (by decide),
   c5_parameter_memoization.2 ⟨[((1, 0), 0)], 1⟩ ⟨2, ["q0"]⟩ (.inr 0)
      (1, 0) 0 (by decide)⟩

/-- Claim C6 — shape propagation: for every expression graph whose head
is the matrix-product operator over two children whose shapes compute
to `(n, m)` and `(m2, p)`, the shape computation at the head returns
`(n, p)` when the inner dimensions agree (`m2 = m`) and raises the
invalid-shape error when they differ. -/
theorem c6_matmul_shape_propagation (g : ExpressionGraph)
    (c1 c2 n m m2 p fuel : Nat)
    (hhd : g.nodes[g.head]? = some (.op .matmul))
    (hedg : dictLookup g.edges g.head = some [c1, c2])
    (h1 : shapeAux g fuel (.inl c1) = .ok [[n, m]])
    (h2 : shapeAux g fuel (.inl c2) = .ok [[m2, p]]) :
    (m2 = m → shapeAux g (fuel + 4) (.inl g.head) = .ok [[n, p]])
    ∧ (m2 ≠ m → shapeAux g (fuel + 4) (.inl g.head) = .err) := by
  have h1' : shapeAux g (fuel + 2) (.inl c1) = .ok [[n, m]] := by
    rw [shapeAux_mono_le g fuel (fuel + 2) (by omega) _
      (by rw [h1]; exact fun hx => ShRes.noConfusion hx), h1]
  have h2' : shapeAux g (fuel + 1) (.inl c2) = .ok [[m2, p]] := by
    rw [shapeAux_mono_le g fuel (fuel + 1) (by omega) _
      (by rw [h2]; exact fun hx => ShRes.noConfusion hx), h2]
  have hnil : shapeAux g (fuel + 1) (.inr ([] : List Nat)) = .ok [] :=
    shapeAux_inr_nil g fuel
  have hc2 : shapeAux g (fuel + 2) (.inr [c2]) = .ok [[m2, p]] := by
    rw [shapeAux_inr_cons]
    simp only [h2', hnil, List.append_nil]
  have hc12 : shapeAux g (fuel + 3) (.inr [c1, c2]) = .ok [[n, m], [m2, p]] := by
    rw [shapeAux_inr_cons]
    simp only [h1', hc2]
    rfl
  have hbody : shapeAux g (fuel + 4) (.inl g.head) =
      inferShape .matmul [[n, m], [m2, p]] := by
    rw [shapeAux_inl_def]
    simp only [hedg, hhd, hc12]
  constructor
  · intro hm
    subst hm
    simp [hbody, inferShape, matmulShape, matmulShapeFold]
  · intro hm
    rw [hbody]
    simp [inferShape, matmulShape, matmulShapeFold, Ne.symm hm]

/-- Witness for C6: matrix product of shapes `(3,4)` and `(4,2)` has
shape `(3,2)`; of `(3,4)` and `(5,2)` it is the invalid-shape error. -/
theorem c6_matmul_shape_propagation_witness :
    shapeAux matmulGoodGraph (1 + 4) (.inl matmulGoodGraph.head) = .ok [[3, 2]]
    ∧ shapeAux matmulBadGraph (1 + 4) (.inl matmulBadGraph.head) = .err :=
  ⟨(c6_matmul_shape_propagation matmulGoodGraph 1 2 3 4 4 2 1
      (by decide) (by decide) (by decide) (by decide)).1 rfl,
   (c6_matmul_shape_propagation matmulBadGraph 1 2 3 4 5 2 1
      (by decide) (by decide) (by decide) (by decide)).2 (by decide)⟩

/-- Claim C7 — the claim says `ExpressionGraph.__hash__` succeeds for
every graph; on the code it never does: the hashed tuple's first
element is the raw `self.edges` dict, and CPython dicts are unhashable,
so `hash` raises `TypeError` for every graph (while every individual
node hash succeeds).  This theorem evaluates the code's hash at every
graph, exhibiting the failure. -/
theorem c7_graph_hash_always_raises :
    ∀ g : ExpressionGraph, g.pyHashValue = none := by
  intro g
  simp [ExpressionGraph.pyHashValue, pyHashTuple, pyHashTupleElems, pyHashAtom]

/-- Claim C8 — cast dispatch with the target type omitted: no converter
registered for the value's source type raises the unknown-cast error;
more than one raises the ambiguity error; exactly one is applied and
its result returned.  The hypothesis `hwf` is the registry invariant
maintained by `register` (a source-type entry is created only together
with its first converter, so no entry is empty). -/
theorem c8_cast_dispatch {V : Type} (reg : CastRegistry V) (ty : String)
    (v : V) (hwf : ∀ e ∈ reg, e.2 ≠ []) :
    (((regLookup reg ty).getD []).length = 0 →
        cast_type reg ty v none = .error .notImplemented)
    ∧ (2 ≤ ((regLookup reg ty).getD []).length →
        cast_type reg ty v none = .error .typeError)
    ∧ (∀ (t : String) (f : V → V), regLookup reg ty = some [(t, f)] →
        cast_type reg ty v none = .ok (f v)) := by
  refine ⟨?_, ?_, ?_⟩
  · intro h0
    cases hl : regLookup reg ty with
    | none => simp [cast_type, hl]
    | some cs =>
      exfalso
      have hne := hwf (ty, cs) (regLookup_mem ty cs reg hl)
      rw [hl] at h0
      simp only [Option.getD_some, List.length_eq_zero] at h0
      exact hne h0
  · intro h2
    cases hl : regLookup reg ty with
    | none => simp [hl] at h2
    | some cs =>
      rw [hl] at h2
      simp only [Option.getD_some] at h2
      match cs, h2 with
      | (t1, f1) :: (t2, f2) :: rest, _ => simp [cast_type, hl]
  · intro t f hl
    simp [cast_type, hl]

/-- Witness for C8: a registry with exactly one converter for the
source type applies it. -/
theorem c8_cast_dispatch_witness :
    cast_type [("ndarray", [("backend", fun q : ℚ => q + 1)])] "ndarray"
        (2 : ℚ) none = .ok 3 := by
  have h := (c8_cast_dispatch [("ndarray", [("backend", fun q : ℚ => q + 1)])]
      "ndarray" 2 (by intro e he; simp at he; rw [he]; simp)).2.2
      "backend" (fun q => q + 1) rfl
  rw [h]
  norm_num

/-- Claim C9 — invalid Parameter constructions: an integer index
outside `0 ≤ index < len(block.parameters)`, or a name the block's
lookup cannot resolve, raises the invalid-parameter error, and in
either case the process-wide cache is unchanged and no object is
created. -/
theorem c9_invalid_parameter_error :
    (∀ (s : ParamState) (b : Block) (i : ℤ),
        ¬(0 ≤ i ∧ i < b.parameters.length) →
        Parameter.new s b (.inr i) = (.error, s))
    ∧ (∀ (s : ParamState) (b : Block) (name : String),
        name ∉ b.parameters →
        Parameter.new s b (.inl name) = (.error, s)) := by
  constructor
  · intro s b i hb
    unfold Parameter.new
    simp [if_neg hb]
  · intro s b name hn
    unfold Parameter.new
    simp [find_param_index_by_name, Block.find_by_name,
      listIndexStr_eq_none _ _ hn]

/-- Witness for C9: index `5` on a one-parameter block, and an
unresolvable name, both error without touching the cache. -/
theorem c9_invalid_parameter_error_witness :
    Parameter.new ⟨[], 0⟩ ⟨1, ["p0"]⟩ (.inr 5) = (.error, ⟨[], 0⟩)
    ∧ Parameter.new ⟨[], 0⟩ ⟨1, ["p0"]⟩ (.inl "q") = (.error, ⟨[], 0⟩) :=
  ⟨c9_invalid_parameter_error.1 ⟨[], 0⟩ ⟨1, ["p0"]⟩ 5 (by decide),
   c9_invalid_parameter_error.2 ⟨[], 0⟩ ⟨1, ["p0"]⟩ "q" (by decide)⟩

/-- Claim C10 — `is_symbolic` always returns `True`: the code compares
the symbol set against an empty dict with `!=`, and a Python set is
never equal to a dict, so every graph whose `symbols()` evaluates is
symbolic — including `1 + 2`, all of whose leaves are numeric constants
and whose symbol set is empty. -/
theorem c10_is_symbolic_always_true :
    (∀ (g : ExpressionGraph) (s : Finset Leaf),
        g.symbols = some s → g.is_symbolic = some true)
    ∧ constGraph.symbols = some ∅
    ∧ constGraph.is_symbolic = some true := by
  refine ⟨?_, by decide, by decide⟩
  intro g s h
  simp [ExpressionGraph.is_symbolic, h, pySetEqEmptyDict]

/-- Witness for C10 at the all-constant graph `1 + 2`. -/
theorem c10_is_symbolic_always_true_witness :
    constGraph.is_symbolic = some true :=
  c10_is_symbolic_always_true.1 constGraph ∅ (by decide)
